import Mathlib

/-!
# Verification of the `markus456/lisp` interpreter and JIT

Shallow embedding of the parts of the repository that the verified
statements below concern:

* the tree-walking evaluator of `lisp.c` (the revision with the
  `TailCall` trampoline, the 16-slot error ring and the growing
  garbage collector): heap objects, scopes, `eval`/`eval_cell`, the
  builtin primitives `+ < quote eq if progn cons car cdr`, and macro
  expansion (`namespace Part004`);
* the error ring buffer `error_stack`/`error_ptr` and the drain loop of
  `parse()` (`namespace ErrRing`);
* the semi-space/grow policy of `collect_garbage` and the `-m` clamp of
  `main` (`namespace GC`);
* the bump allocator `allocate` (`namespace Mem`);
* the interned symbol table `AllSymbols`/`symbol()` together with the
  reader's symbol-producing token paths of `parse_expr`, including the
  `-` branch that renames an interned object in place (`namespace Sym`);
* the reader's `parse_number` (`namespace Reader`);
* the JIT register-count pass `calculate_register_count` of
  `compiler.c` (`namespace Jit`).

Machine integers are modeled as `Nat`/`Int` with explicit `% 2 ^ 64`
where the C source relies on unsigned wraparound.
-/

namespace Part004

/-- The builtin primitives modeled here: the subset of
`define_builtins()` that the verified statements exercise.  (The
remaining primitives -- `- list eval apply lambda define defun compile
defmacro macroexpand print write-char rand load exit debug` -- are
independent of each statement below.) -/
inductive BName where
  | addB | lessB | quoteB | eqB | ifB | prognB | consB | carB | cdrB
deriving DecidableEq

/-- An `Object*` value: one of the constant singletons `Nil_obj`,
`True_obj`, `TailCall_obj` (all of C type `TYPE_CONST`, distinguished
by address), or a pointer to a heap object (`ref a` is the address
`a`). -/
inductive Val where
  | nil | tru | tailCall | ref (a : Nat)
deriving DecidableEq

/-- A heap `struct Object`, tagged by its `type` byte.  `func`/`mac`
carry `func_params`, `func_body`, `func_env` and the `compiled` flag. -/
inductive HObj where
  | num (n : Int)
  | sym (s : String)
  | builtin (b : BName)
  | cell (car cdr : Val)
  | func (params body env : Val) (compiled : Bool)
  | mac (params body env : Val) (compiled : Bool)
deriving DecidableEq

/-- Interpreter state: the heap (an address is an index into the list;
`allocate` is modeled as appending a fresh object -- the statements
settled on this embedding are independent of collections, whose policy
is modeled separately in `GC` and `Mem`), the two global slots
`tail_expr`/`tail_scope` of `TailCall_obj`, and the sequence of
messages passed to `error()` (the ring-buffer semantics of
`error_stack` is modeled in `ErrRing`). -/
structure St where
  heap : List HObj
  tail_expr : Val
  tail_scope : Val
  errors : List String
deriving DecidableEq

def heapGet (st : St) (a : Nat) : Option HObj := st.heap.get? a

def objAt (st : St) : Val → Option HObj
  | .ref a => heapGet st a
  | _ => none

/-- `allocate` + object initialisation, as used by `cons`,
`make_number`, `make_function`: returns the fresh pointer. -/
def alloc (st : St) (o : HObj) : Val × St :=
  (.ref st.heap.length, { st with heap := st.heap ++ [o] })

def heapSet (st : St) (a : Nat) (o : HObj) : St :=
  { st with heap := st.heap.set a o }

/-- `error()`: records one message (the `printf`-style formatting of the
C source is elided; only the sequence of recorded messages matters to
the statements below). -/
def errorE (st : St) (msg : String) : St :=
  { st with errors := st.errors ++ [msg] }

/-- `obj->car`, and also the helper `car()`: the car field when the
value points at a cell, `Nil` otherwise.  (A direct `->car` read on a
non-cell is undefined behavior in C; every use below is on a cell.) -/
def carF (st : St) (v : Val) : Val :=
  match objAt st v with | some (.cell c _) => c | _ => .nil

/-- `obj->cdr` / the helper `cdr()`. -/
def cdrF (st : St) (v : Val) : Val :=
  match objAt st v with | some (.cell _ d) => d | _ => .nil

/-- `v->type == TYPE_CELL`. -/
def isCell (st : St) (v : Val) : Bool :=
  match objAt st v with | some (.cell _ _) => true | _ => false

/-- The `type` byte of a value (`TYPE_CONST` for the three singletons);
`none` for a dangling pointer, which no reachable state produces. -/
inductive OType where
  | constT | numT | symT | builtinT | cellT | funcT | macT
deriving DecidableEq

def typeOf (st : St) : Val → Option OType
  | .nil | .tru | .tailCall => some .constT
  | .ref a =>
    (heapGet st a).map fun o =>
      match o with
      | .num _ => .numT
      | .sym _ => .symT
      | .builtin _ => .builtinT
      | .cell _ _ => .cellT
      | .func _ _ _ _ => .funcT
      | .mac _ _ _ _ => .macT

def numOf (st : St) (v : Val) : Int :=
  match objAt st v with | some (.num n) => n | _ => 0

def nameOf (st : St) (v : Val) : String :=
  match objAt st v with | some (.sym s) => s | _ => ""

/-- `CHECK0ARGS(args)`: true when the arity check FAILS. -/
def CHECK0ARGS (args : Val) : Bool := args ≠ .nil

def CHECK1ARGS (st : St) (args : Val) : Bool :=
  !isCell st args || CHECK0ARGS (cdrF st args)

def CHECK2ARGS (st : St) (args : Val) : Bool :=
  !isCell st args || CHECK1ARGS st (cdrF st args)

def CHECK3ARGS (st : St) (args : Val) : Bool :=
  !isCell st args || CHECK2ARGS st (cdrF st args)

/-- Inner loop of `symbol_lookup`: walk one bindings list (a cons chain
of `(symbol . value)` cells), comparing the bound symbol pointer with
`symv`.  The fuel only guards against cyclic chains, which no reachable
state contains. -/
def lookup_bindings : Nat → St → Val → Val → Option Val
  | 0, _, _, _ => none
  | fuel+1, st, o, symv =>
    match objAt st o with
    | some (.cell b rest) =>
      (match objAt st b with
       | some (.cell s v) =>
         if s = symv then some v else lookup_bindings fuel st rest symv
       | _ => lookup_bindings fuel st rest symv)
    | _ => none

/-- `symbol_lookup(scope, sym)`: innermost scope first; `none` models
the C `NULL` return. -/
def symbol_lookup : Nat → St → Val → Val → Option Val
  | 0, _, _, _ => none
  | fuel+1, st, scope, symv =>
    match objAt st scope with
    | some (.cell bindings rest) =>
      (match lookup_bindings (fuel+1) st bindings symv with
       | some v => some v
       | none => symbol_lookup fuel st rest symv)
    | _ => none

/-- `new_scope(prev)` = `cons(Nil, prev)`. -/
def new_scope (st : St) (prev : Val) : Val × St :=
  alloc st (.cell .nil prev)

/-- `bind_value(scope, symbol, value)`: allocates the `(symbol . value)`
pair, conses it onto `scope->car` and writes the result back into
`scope->car` (the one heap mutation the evaluator performs). -/
def bind_value (st : St) (scope symv v : Val) : St :=
  let p := alloc st (.cell symv v)
  match scope with
  | .ref a =>
    (match heapGet p.2 a with
     | some (.cell scar scdr) =>
       let q := alloc p.2 (.cell p.1 scar)
       heapSet q.2 a (.cell q.1 scdr)
     | _ => p.2)
  | _ => p.2

/-- The type of `eval` specialised to one fuel value; the builtins
receive it as the `ev` argument. -/
abbrev Ev := St → Val → Val → Val × St

/-- `builtin_quote`. -/
def builtin_quote (st : St) (args : Val) : Val × St :=
  if CHECK1ARGS st args then (.nil, errorE st "Quote takes exactly one argument")
  else (carF st args, st)

/-- `builtin_if`: evaluates only the condition, then parks the selected
branch and the current scope in the two slots of `TailCall_obj` and
returns the sentinel. -/
def builtin_if (ev : Ev) (st : St) (scope args : Val) : Val × St :=
  if CHECK3ARGS st args then (.nil, errorE st "if takes exactly three arguments")
  else
    let p := ev st scope (carF st args)
    let st1 := p.2
    let res := if p.1 ≠ Val.nil then carF st1 (cdrF st1 args)
               else carF st1 (cdrF st1 (cdrF st1 args))
    (.tailCall, { st1 with tail_expr := res, tail_scope := scope })

/-- The loop of `builtin_progn`: evaluates every form but the last;
`ret` threads the most recent result (`Nil` initially). -/
def builtin_progn_go (ev : Ev) : Nat → St → Val → Val → Val → Val × St
  | 0, st, _, _, ret => (ret, st)
  | fuel+1, st, scope, args, ret =>
    if args ≠ Val.nil ∧ cdrF st args ≠ Val.nil then
      let p := ev st scope (carF st args)
      builtin_progn_go ev fuel p.2 scope (cdrF p.2 args) p.1
    else if args ≠ Val.nil then
      (.tailCall, { st with tail_expr := carF st args, tail_scope := scope })
    else (ret, st)

/-- `builtin_progn`: all but the last form are evaluated in place; the
last form is parked on the `TailCall` sentinel; an empty `(progn)`
returns `Nil` directly. -/
def builtin_progn (ev : Ev) (fuel : Nat) (st : St) (scope args : Val) : Val × St :=
  builtin_progn_go ev fuel st scope args .nil

/-- The loop of `builtin_add`.  (`sum` is `int64_t` in C; signed
overflow there is undefined behavior, so the sum is modeled as a plain
`Int`.) -/
def builtin_add_go (ev : Ev) : Nat → St → Val → Val → Int → Val × St
  | 0, st, _, _, _ => (.nil, st)
  | fuel+1, st, scope, args, sum =>
    if args = Val.nil then
      let p := alloc st (.num sum)
      (p.1, p.2)
    else
      let p := ev st scope (carF st args)
      match objAt p.2 p.1 with
      | some (.num k) => builtin_add_go ev fuel p.2 scope (cdrF p.2 args) (sum + k)
      | _ => (.nil, errorE p.2 "Not a number")

/-- `builtin_add`: records "Not a number" and returns `Nil` as soon as
one evaluated argument is not a number. -/
def builtin_add (ev : Ev) (fuel : Nat) (st : St) (scope args : Val) : Val × St :=
  if args = Val.nil then (.nil, errorE st "Not enough arguments to +.")
  else builtin_add_go ev fuel st scope args 0

/-- `builtin_less`: evaluates both arguments; yields `True` only when
both are numbers and `lhs->number < rhs->number`; yields `Nil` in every
other case WITHOUT recording any error. -/
def builtin_less (ev : Ev) (st : St) (scope args : Val) : Val × St :=
  if CHECK2ARGS st args then (.nil, errorE st "< expects exactly two arguments")
  else
    let p := ev st scope (carF st args)
    let q := ev p.2 scope (carF p.2 (cdrF p.2 args))
    let ret :=
      match objAt q.2 p.1, objAt q.2 q.1 with
      | some (.num a), some (.num b) => if a < b then Val.tru else Val.nil
      | _, _ => Val.nil
    (ret, q.2)

/-- The comparison `builtin_eq` performs after evaluating both
arguments: different type bytes give `Nil`; `TYPE_CONST` gives `True`;
cells, builtins, functions and macros give `Nil` unconditionally;
numbers compare by value; symbols by `strcmp` on the names. -/
def eq_values (st : St) (lhs rhs : Val) : Val :=
  match typeOf st lhs, typeOf st rhs with
  | some tl, some tr =>
    if tl ≠ tr then .nil
    else
      match tl with
      | .constT => .tru
      | .cellT => .nil
      | .builtinT => .nil
      | .funcT => .nil
      | .macT => .nil
      | .numT => if numOf st lhs = numOf st rhs then .tru else .nil
      | .symT => if nameOf st lhs = nameOf st rhs then .tru else .nil
  | _, _ => .nil

/-- `builtin_eq`. -/
def builtin_eq (ev : Ev) (st : St) (scope args : Val) : Val × St :=
  if CHECK2ARGS st args then (.nil, errorE st "= takes exactly two arguments")
  else
    let p := ev st scope (carF st args)
    let q := ev p.2 scope (carF p.2 (cdrF p.2 args))
    (eq_values q.2 p.1 q.1, q.2)

/-- `builtin_cons`. -/
def builtin_cons (ev : Ev) (st : St) (scope args : Val) : Val × St :=
  if CHECK2ARGS st args then (.nil, errorE st "cons takes exactly two arguments")
  else
    let p := ev st scope (carF st args)
    let q := ev p.2 scope (carF p.2 (cdrF p.2 args))
    let r := alloc q.2 (.cell p.1 q.1)
    (r.1, r.2)

/-- `builtin_car`. -/
def builtin_car (ev : Ev) (st : St) (scope args : Val) : Val × St :=
  if CHECK1ARGS st args then (.nil, errorE st "car takes a list as its argument")
  else
    let p := ev st scope (carF st args)
    match objAt p.2 p.1 with
    | some (.cell c _) => (c, p.2)
    | _ => (.nil, errorE p.2 "Evaluation did not produce a list")

/-- `builtin_cdr`. -/
def builtin_cdr (ev : Ev) (st : St) (scope args : Val) : Val × St :=
  if CHECK1ARGS st args then (.nil, errorE st "cdr takes a list as its argument")
  else
    let p := ev st scope (carF st args)
    match objAt p.2 p.1 with
    | some (.cell _ d) => (d, p.2)
    | _ => (.nil, errorE p.2 "Evaluation did not produce a list")

/-- Builtin dispatch (`fn->fn(scope, args)`). -/
def apply_builtin (ev : Ev) (fuel : Nat) (b : BName) (st : St) (scope args : Val) :
    Val × St :=
  match b with
  | .addB => builtin_add ev fuel st scope args
  | .lessB => builtin_less ev st scope args
  | .quoteB => builtin_quote st args
  | .eqB => builtin_eq ev st scope args
  | .ifB => builtin_if ev st scope args
  | .prognB => builtin_progn ev fuel st scope args
  | .consB => builtin_cons ev st scope args
  | .carB => builtin_car ev st scope args
  | .cdrB => builtin_cdr ev st scope args

/-- Binding loop of `expand_macro`: binds the RAW (unevaluated)
arguments to the formals in the fresh scope; stops early when `args` is
a non-cell.  Returns the final state and the leftover `param`/`args`. -/
def expandMac_loop : Nat → St → Val → Val → Val → St × Val × Val
  | 0, st, _, params, args => (st, params, args)
  | fuel+1, st, scope2, params, args =>
    if params ≠ Val.nil ∧ args ≠ Val.nil then
      if isCell st args then
        let st1 := bind_value st scope2 (carF st params) (carF st args)
        expandMac_loop fuel st1 scope2 (cdrF st1 params) (cdrF st1 args)
      else (st, params, args)
    else (st, params, args)

/-- `expand_macro`: fresh scope over the caller's, raw arguments bound
to formals, arity errors yield `Nil`, otherwise the macro body is
evaluated in the fresh scope. -/
def expandMac (ev : Ev) (fuel : Nat) (st : St) (scope params body args : Val) :
    Val × St :=
  let p := new_scope st scope
  let q := expandMac_loop fuel p.2 p.1 params args
  if q.2.2 ≠ Val.nil then
    if isCell q.1 q.2.2 then (.nil, errorE q.1 "Too many arguments to macro")
    else (.nil, errorE q.1 "Invalid argument type:")
  else if q.2.1 ≠ Val.nil then (.nil, errorE q.1 "Not enough arguments to macro")
  else ev q.1 p.1 body

/-- Result of the argument-binding loop in the `TYPE_FUNCTION` branch of
`eval_cell`. -/
inductive Arity where
  | okA | notEnough | tooMany
deriving DecidableEq

/-- Argument binding of a function application: each actual is evaluated
against the CALLER scope and bound in the fresh scope.  The third
component threads `ret` (the last evaluated actual), which the C code
returns when the arity check fails. -/
def bind_args (ev : Ev) : Nat → St → Val → Val → Val → Val → Val → St × Arity × Val
  | 0, st, _, _, _, _, ret => (st, .okA, ret)
  | fuel+1, st, scope, nscope, params, args, ret =>
    if params ≠ Val.nil ∧ args ≠ Val.nil then
      let p := ev st scope (carF st args)
      let st1 := bind_value p.2 nscope (carF p.2 params) p.1
      bind_args ev fuel st1 scope nscope (cdrF st1 params) (cdrF st1 args) p.1
    else if params ≠ Val.nil then (st, .notEnough, ret)
    else if args ≠ Val.nil then (st, .tooMany, ret)
    else (st, .okA, ret)

/-- The `if (ret == TailCall)` epilogue of `eval_cell`: reload the
parked expression and scope from the sentinel's slots, loop (`goto
start`, here the continuation `evC`) when the reloaded expression is a
cell, evaluate it once (`evE`) otherwise. -/
def tail_dispatch (evE evC : Ev) (st : St) (ret : Val) : Val × St :=
  if ret = Val.tailCall then
    let obj := st.tail_expr
    let scope := st.tail_scope
    if isCell st obj then evC st scope obj
    else evE st scope obj
  else (ret, st)

/-- Which entry point is running: `exprM` is `eval`, `cellM` is
`eval_cell` (its loop body from the label `start:`).  Merging the two
mutually recursive C functions into one structurally fuel-recursive
function keeps every run kernel-computable. -/
inductive Mode where
  | exprM | cellM
deriving DecidableEq

/-- `eval` / `eval_cell` with fuel.  Fuel is consumed at every nested
evaluation and at every `goto start`; it is an artifact of the
embedding (the C functions recurse on the host stack), and every
statement below quantifies over or instantiates a sufficient fuel. -/
def evalR : Nat → Mode → St → Val → Val → Val × St
  | 0, _, st, _, _ => (.nil, st)
  | fuel+1, .exprM, st, scope, obj =>
    (match obj with
     | .ref a =>
       (match heapGet st a with
        | some (.sym s) =>
          (match symbol_lookup (fuel+1) st scope obj with
           | some v => (v, st)
           | none => (.nil, errorE st ("Undefined symbol: " ++ s)))
        | some (.cell _ _) => evalR fuel .cellM st scope obj
        | some _ => (obj, st)
        | none => (.nil, st))
     | _ => (obj, st))
  | fuel+1, .cellM, st, scope, obj =>
    let p := evalR fuel .exprM st scope (carF st obj)
    let st1 := p.2
    match objAt st1 p.1 with
    | some (.mac params body _ _) =>
      let q := expandMac (evalR fuel .exprM) fuel st1 scope params body (cdrF st1 obj)
      let r := evalR fuel .exprM q.2 scope q.1
      tail_dispatch (evalR fuel .exprM) (evalR fuel .cellM) r.2 r.1
    | some (.builtin b) =>
      let r := apply_builtin (evalR fuel .exprM) fuel b st1 scope (cdrF st1 obj)
      tail_dispatch (evalR fuel .exprM) (evalR fuel .cellM) r.2 r.1
    | some (.func params body env _) =>
      let n := new_scope st1 (if env ≠ Val.nil then env else scope)
      let q := bind_args (evalR fuel .exprM) fuel n.2 scope n.1 params (cdrF n.2 obj) .nil
      (match q.2.1 with
       | .notEnough =>
         tail_dispatch (evalR fuel .exprM) (evalR fuel .cellM)
           (errorE q.1 "Not enough arguments to function") q.2.2
       | .tooMany =>
         tail_dispatch (evalR fuel .exprM) (evalR fuel .cellM)
           (errorE q.1 "Too many arguments to function") q.2.2
       | .okA =>
         if isCell q.1 body then evalR fuel .cellM q.1 n.1 body
         else
           let r := evalR fuel .exprM q.1 n.1 body
           tail_dispatch (evalR fuel .exprM) (evalR fuel .cellM) r.2 r.1)
    | _ =>
      tail_dispatch (evalR fuel .exprM) (evalR fuel .cellM)
        (errorE st1 "Not a function:") .nil

/-- `eval(scope, obj)`. -/
def eval (fuel : Nat) (st : St) (scope obj : Val) : Val × St :=
  evalR fuel .exprM st scope obj

/-- `eval_cell(scope, obj)` (the application loop). -/
def eval_cell (fuel : Nat) (st : St) (scope obj : Val) : Val × St :=
  evalR fuel .cellM st scope obj

end Part004

/-!
## The error ring buffer and the REPL drain

`error()` formats into `error_stack[error_ptr % 16]` and increments the
8-bit counter `error_ptr`.  After evaluating one top-level form,
`parse()` either prints the value (non-quiet mode) or -- only in quiet
mode -- drains the buffer: it decrements `error_ptr` and prints
`error_stack[slot % 16]` for `slot = error_ptr - i`, `i = 16 .. 0`,
skipping negative slots, then resets `error_ptr` to zero.
-/

namespace ErrRing

/-- `error_stack` (a total map from buffer index to contents; the C
array starts uninitialised, so an arbitrary initial map is allowed) and
the `uint8_t` counter `error_ptr`. -/
structure ErrState where
  stack : Nat → String
  ptr : Nat

/-- `error(msg)`: write into slot `error_ptr % 16`, increment the 8-bit
counter (mod 256). -/
def error_record (st : ErrState) (msg : String) : ErrState :=
  { stack := fun j => if j = st.ptr % 16 then msg else st.stack j,
    ptr := (st.ptr + 1) % 256 }

def record_all (st : ErrState) (msgs : List String) : ErrState :=
  msgs.foldl error_record st

/-- The 17-iteration print loop of the drain (`for (int i = 16; i >= 0;
i--)`), with `p` the already-decremented counter: the line printed at
iteration `i = 16 - k` is `error_stack[(p - i) % 16]` provided
`p - i >= 0` (computed in `int`, hence the `ℤ` slot). -/
def drain_lines (p : Nat) (stack : Nat → String) : List String :=
  (List.range 17).filterMap fun (k : Nat) =>
    let slot : Int := (p : Int) - (16 - (k : Int))
    if 0 ≤ slot then some (stack (slot.toNat % 16)) else none

/-- The post-form epilogue of `parse()`: in non-quiet mode the value is
printed and the error state is left untouched; in quiet mode, when
`error_ptr` is non-zero, the buffer is drained and the counter reset. -/
def repl_drain (quiet : Bool) (st : ErrState) : List String × ErrState :=
  if !quiet then ([], st)
  else if st.ptr = 0 then ([], st)
  else (drain_lines (st.ptr - 1) st.stack, { st with ptr := 0 })

end ErrRing

/-!
## The collector's swap/grow policy and the `-m` clamp

`collect_garbage` either (a) when `grow_memory` is set: allocates a
fresh arena of twice the previous total size, evacuates into its first
semi-space, clears the flag and frees the old arena -- without
re-examining occupancy -- or (b) otherwise: swaps the two semi-spaces of
the existing arena and afterwards sets `grow_memory` iff the
post-collection occupancy `still_in_use / space_size * 100` exceeds
`memory_pct`.  `main` clamps `memory_pct` (default 75) into [1, 99].
-/

namespace GC

/-- The collector state the policy depends on: total arena size in
bytes, an identifier for the current `malloc`ed arena, which semi-space
is active (`first_active ↔ mem_end == mem_root + memory_size / 2`), and
the `grow_memory` flag. -/
structure GCState where
  memory_size : Nat
  arena : Nat
  first_active : Bool
  grow_memory : Bool
deriving DecidableEq

/-- One collection: the post-state, whether this collection grew, and
the arena it freed (the old arena, in the grow case). -/
structure GCResult where
  state : GCState
  grew : Bool
  freed : Option Nat
deriving DecidableEq

/-- `still_in_use / space_size * 100` (the C source computes this in
`double`; the exact rational value decides every comparison below). -/
def pct_in_use (live space : Nat) : ℚ := (live * 100 : ℚ) / (space : ℚ)

/-- `collect_garbage`, abstracted over the size `live` of the surviving
object graph (`still_in_use`). -/
def collect_garbage (threshold : ℚ) (live : Nat) (st : GCState) : GCResult :=
  if st.grow_memory then
    { state := { memory_size := st.memory_size * 2, arena := st.arena + 1,
                 first_active := true, grow_memory := false },
      grew := true, freed := some st.arena }
  else
    { state := { st with
                 first_active := !st.first_active
                 grow_memory := pct_in_use live (st.memory_size / 2) > threshold },
      grew := false, freed := none }

/-- The clamp `main` applies to `memory_pct` after option parsing. -/
def clamp_pct (p : ℚ) : ℚ :=
  if p > 99 then 99 else if p < 1 then 1 else p

/-- The default of `memory_pct`. -/
def default_pct : ℚ := 75

end GC

/-!
## The bump allocator

`allocate(size)` runs `collect_garbage()` when `mem_ptr + size >
mem_end`, and then -- without re-checking and without any abort path --
returns `mem_ptr` and advances it by `size`.
-/

namespace Mem

/-- Allocator state, with `mem_ptr` and `mem_end` as byte offsets from
`mem_root`; the active semi-space is the first half iff `mem_end =
memory_size / 2`. -/
structure MemState where
  memory_size : Nat
  mem_ptr : Nat
  mem_end : Nat
  grow_memory : Bool
deriving DecidableEq

/-- The effect of `collect_garbage` on the allocator state, abstracted
over the surviving byte count `live`: the evacuation leaves `mem_ptr`
at `live` bytes past the start of the destination semi-space. -/
def collect_garbage_mem (threshold : ℚ) (live : Nat) (st : MemState) : MemState :=
  let space := st.memory_size / 2
  if st.grow_memory then
    { memory_size := st.memory_size * 2, mem_ptr := live,
      mem_end := st.memory_size, grow_memory := false }
  else if st.mem_end = space then
    { st with
      mem_ptr := space + live
      mem_end := st.memory_size
      grow_memory := GC.pct_in_use live space > threshold }
  else
    { st with
      mem_ptr := live
      mem_end := space
      grow_memory := GC.pct_in_use live space > threshold }

/-- `allocate(size)`: collect when the request does not fit, then bump
unconditionally.  There is no post-collection re-check and no abort in
this revision, so the returned block may extend past `mem_end`. -/
def allocate (threshold : ℚ) (live : Nat) (size : Nat) (st : MemState) :
    Nat × MemState :=
  let st1 := if st.mem_ptr + size > st.mem_end
             then collect_garbage_mem threshold live st else st
  (st1.mem_ptr, { st1 with mem_ptr := st1.mem_ptr + size })

end Mem

/-!
## The interned symbol table and the reader's symbol tokens

`symbol(name)` walks the cons chain `AllSymbols` comparing names with
`strcmp`; on a hit it returns the stored symbol object, otherwise it
allocates a fresh symbol, pushes it on the chain and returns it.

The reader produces symbols through two paths of `parse_expr`: the
default branch calls `parse_symbol()` (which reads the token and calls
`symbol()`), and the `-` branch -- when the character after `-` is
neither a digit nor whitespace -- calls `parse_symbol()` on the TAIL
and then rewrites the returned object's name in place:

    o = parse_symbol();
    memmove(o->name + 1, o->name, strlen(o->name));
    o->name[0] = '-';

Since `parse_symbol()` interns, the renamed object may be a previously
shared symbol, and it stays in `AllSymbols` under its new name.
-/

namespace Sym

/-- The symbol table: `AllSymbols` as a list of (heap address, name)
pairs, newest first, plus the allocation counter producing fresh
addresses. -/
structure SymState where
  table : List (Nat × String)
  next_addr : Nat
deriving DecidableEq

/-- `symbol(name)`. -/
def symbol (name : String) (st : SymState) : Nat × SymState :=
  match st.table.find? (fun e => e.2 = name) with
  | some e => (e.1, st)
  | none => (st.next_addr, ⟨(st.next_addr, name) :: st.table, st.next_addr + 1⟩)

/-- Run a sequence of reader-driven `symbol` calls, keeping only the
final state. -/
def run_symbols (names : List String) (st : SymState) : SymState :=
  names.foldl (fun s n => (symbol n s).2) st

/-- The interning invariant: no two entries of `AllSymbols` share a
name. -/
def NoDupNames (st : SymState) : Prop :=
  (st.table.map Prod.snd).Nodup

instance (st : SymState) : Decidable (NoDupNames st) :=
  inferInstanceAs (Decidable ((st.table.map Prod.snd).Nodup))

/-- The `-` token branch of `parse_expr` whose next character is
neither a digit nor whitespace: `parse_symbol()` interns the TAIL
(possibly returning an already shared symbol object), after which the
`memmove` and `o->name[0] = '-'` rename that object's name in place to
`'-' ++ tail`.  The object keeps its address and its place in
`AllSymbols`, now under the new name.  (The C `memmove` additionally
fails to move the NUL terminator; the intended renamed string is
modeled.) -/
def parse_minus_symbol (tail : String) (st : SymState) : Nat × SymState :=
  let p := symbol tail st
  (p.1, { p.2 with
          table := p.2.table.map fun e =>
            if e.1 = p.1 then (e.1, "-" ++ tail) else e })

/-- One symbol-producing token of `parse_expr`: a plain occurrence
(default branch) or a `-`-prefixed one (the rename branch above). -/
inductive Token where
  | plain (name : String)
  | minus (tail : String)
deriving DecidableEq

/-- The heap object the reader returns for one token, with the
resulting table. -/
def read_token (t : Token) (st : SymState) : Nat × SymState :=
  match t with
  | .plain n => symbol n st
  | .minus n => parse_minus_symbol n st

/-- The reader's effect on `AllSymbols` over a token sequence. -/
def read_tokens (ts : List Token) (st : SymState) : SymState :=
  ts.foldl (fun s t => (read_token t s).2) st

end Sym

/-!
## The reader's number parser

`parse_number` consumes the first digit unconditionally, then folds the
remaining digits into a `uint64_t` accumulator `val = ch - '0' + val *
10`, erroring out (returning `Nil`) as soon as `val >= LONG_MAX` after a
step.  The accepted accumulator is returned as the number.
-/

namespace Reader

def UINT64_MOD : Nat := 2 ^ 64

def LONG_MAX : Nat := 2 ^ 63 - 1

/-- The digit loop of `parse_number`: `none` models the "Integer
overflow" error path (which returns `Nil` and produces no number). -/
def parse_number_go : Nat → List Nat → Option Nat
  | val, [] => some val
  | val, d :: ds =>
    let v := (d + val * 10) % UINT64_MOD
    if v ≥ LONG_MAX then none else parse_number_go v ds

/-- `parse_number` on the digit string `d :: ds` (the reader guarantees
the first character is a digit). -/
def parse_number (d : Nat) (ds : List Nat) : Option Nat :=
  parse_number_go d ds

/-- The exact decimal value of the digit string. -/
def dec_value (d : Nat) (ds : List Nat) : Nat :=
  ds.foldl (fun a k => a * 10 + k) d

end Reader

/-!
## The JIT register-count pass (`compiler.c`)

`calculate_register_count` annotates each bite with the number of
registers its evaluation needs.  A bite's count depends only on its
subtree and on whether it sits in left-child position, so the pass is
modeled as a function of those two inputs.
-/

namespace Jit

/-- `MAX_IMMEDIATE_CONSTANT_SIZE = 0xFFFFFFFCL` (about `2^32`, NOT the
32-bit signed bound `2^31 - 1`). -/
def MAX_IMMEDIATE_CONSTANT_SIZE : Int := 0xFFFFFFFC

inductive CallKind where
  | recurseK | callK | prognK | writecharK
deriving DecidableEq

/-- A bite tree.  `constant` carries the machine word `get_constant`
returns -- the tagged `Object*` value, i.e. `4 * n` for the Lisp number
`n`, `0xf` for `Nil`, `0x1f` for `True`.  `callLike` holds the
arguments of an `OP_RECURSE`/`OP_CALL`/`OP_PROGN`/`OP_WRITECHAR` bite;
in the C data structure they hang off a chain of `OP_LIST` link bites
whose own `reg_count` field is initialised to 0 by `make_bite_impl` and
never assigned afterwards. -/
inductive Bite where
  | constant (val : Int)
  | parameter (off : Nat)
  | add (a b : Bite)
  | sub (a b : Bite)
  | less (a b : Bite)
  | eq (a b : Bite)
  | neg (a : Bite)
  | ptr (a : Bite) (off : Int)
  | ifB (c t e : Bite)
  | callLike (k : CallKind) (args : List Bite)

/-- The `reg_count` of an `OP_LIST` link bite: set to 0 at creation and
never reassigned. -/
def list_link_reg_count : Nat := 0

mutual
/-- `calculate_register_count(bite, left_leaf)`: the count assigned to
`bite`.  The `OP_IF` case annotates its three children but never
assigns the node's own slot, which therefore keeps its initial 0. -/
def calculate_register_count : Bite → Bool → Nat
  | .constant val, left_leaf =>
    if left_leaf ∨ val ≥ MAX_IMMEDIATE_CONSTANT_SIZE ∨
       val ≤ -MAX_IMMEDIATE_CONSTANT_SIZE then 1 else 0
  | .parameter _, left_leaf => if left_leaf then 1 else 0
  | .add a b, _ =>
    let c1 := calculate_register_count a true
    let c2 := calculate_register_count b false
    if c1 = c2 then c1 + 1 else max c1 c2
  | .sub a b, _ =>
    let c1 := calculate_register_count a true
    let c2 := calculate_register_count b false
    if c1 = c2 then c1 + 1 else max c1 c2
  | .less a b, _ =>
    let c1 := calculate_register_count a true
    let c2 := calculate_register_count b false
    if c1 = c2 then c1 + 1 else max c1 c2
  | .eq a b, _ =>
    let c1 := calculate_register_count a true
    let c2 := calculate_register_count b false
    if c1 = c2 then c1 + 1 else max c1 c2
  | .neg a, _ => calculate_register_count a true
  | .ptr a _, _ => calculate_register_count a true
  | .ifB c t e, _ =>
    let _c1 := calculate_register_count c true
    let _c2 := calculate_register_count t true
    let _c3 := calculate_register_count e true
    0
  | .callLike _ args, _ => count_call_args args 1

/-- The loop over the argument chain of a call-like bite: each
argument's own count is computed (`calculate_register_count(b->arg1,
true)`), but the running maximum is compared against `b->reg_count` --
the count of the `OP_LIST` link `b` itself, which is always 0 -- so the
accumulator never moves off its initial value 1. -/
def count_call_args : List Bite → Nat → Nat
  | [], acc => acc
  | b :: rest, acc =>
    let _child := calculate_register_count b true
    count_call_args rest (if list_link_reg_count > acc then list_link_reg_count else acc)
end

end Jit

/-!
## Verified statements

Each claim-level theorem carries the claim id in its doc comment;
counterexamples are closed evaluations of the embedded code at concrete
inputs.
-/

namespace Jit

/-- The argument loop of `calculate_register_count` never raises the
accumulator: the compared `reg_count` belongs to the `OP_LIST` link, and
that field is always 0. -/
theorem count_call_args_const (args : List Bite) (acc : Nat) :
    count_call_args args acc = acc := by
  induction args generalizing acc with
  | nil => rfl
  | cons b rest ih => simp [count_call_args, list_link_reg_count, ih]

end Jit

/-- Claim C8, counterexample: the claim says a call node is assigned
`max 1 (children's counts)` and that a constant outside the 32-bit
signed immediate range is costed 1.  In the code, (i) a call node whose
only argument needs 2 registers is still assigned 1 (the loop compares
the never-assigned `reg_count` of the `OP_LIST` link, not the child's),
and (ii) the constant threshold is `0xFFFFFFFC = 2^32 - 4`, so the word
`2^31` -- outside the 32-bit signed range `[-2^31, 2^31-1]` -- is
costed 0 in right-child position, not 1. -/
theorem c8_counterexample :
    Jit.calculate_register_count
      (.callLike .callK [.add (.add (.parameter 0) (.parameter 8))
                              (.add (.parameter 16) (.parameter 24))]) false = 1 ∧
    Jit.calculate_register_count
      (.add (.add (.parameter 0) (.parameter 8))
            (.add (.parameter 16) (.parameter 24))) true = 2 ∧
    (1 : Nat) ≠ max 1 2 ∧
    Jit.calculate_register_count (.constant (2 ^ 31)) false = 0 ∧
    ¬ ((2 : Int) ^ 31 ≤ 2 ^ 31 - 1) := by
  refine ⟨by decide, by decide, by decide, by decide, by decide⟩

/-- Claim C8 (amended): binary nodes take `count + 1` on equal children
and the max otherwise; a constant leaf is costed 1 iff it is a left
child or its stored machine word `w` (the tagged value) satisfies
`w ≥ 0xFFFFFFFC` or `w ≤ -0xFFFFFFFC` -- a threshold of `2^32 - 4`,
not the 32-bit signed range -- and 0 otherwise; a parameter leaf costs
1 as a left child and 0 as a right child; and every
call/recurse/progn/write-char node computes its children's counts but
is itself always assigned exactly 1, because the running maximum is
compared against the always-zero `reg_count` of the `OP_LIST` argument
links instead of the children's counts. -/
theorem c8_register_count_amended :
    (∀ a b left,
      Jit.calculate_register_count (.add a b) left =
        (if Jit.calculate_register_count a true = Jit.calculate_register_count b false
         then Jit.calculate_register_count a true + 1
         else max (Jit.calculate_register_count a true)
                  (Jit.calculate_register_count b false))) ∧
    (∀ v, Jit.calculate_register_count (.constant v) false =
        (if v ≥ Jit.MAX_IMMEDIATE_CONSTANT_SIZE ∨
            v ≤ -Jit.MAX_IMMEDIATE_CONSTANT_SIZE then 1 else 0)) ∧
    (∀ v, Jit.calculate_register_count (.constant v) true = 1) ∧
    (∀ off, Jit.calculate_register_count (.parameter off) true = 1) ∧
    (∀ off, Jit.calculate_register_count (.parameter off) false = 0) ∧
    (∀ k args left, Jit.calculate_register_count (.callLike k args) left = 1) := by
  refine ⟨fun a b left => rfl, fun v => by simp [Jit.calculate_register_count],
    fun v => by simp [Jit.calculate_register_count],
    fun off => rfl, fun off => rfl,
    fun k args left => by simp [Jit.calculate_register_count, Jit.count_call_args_const]⟩

namespace Reader

/-- The decimal fold only grows. -/
theorem dec_fold_mono (ds : List Nat) (a : Nat) :
    a ≤ ds.foldl (fun x k => x * 10 + k) a := by
  induction ds generalizing a with
  | nil => exact le_refl a
  | cons d ds ih =>
    calc a ≤ a * 10 + d := by omega
    _ ≤ ds.foldl (fun x k => x * 10 + k) (a * 10 + d) := ih _

/-- Completeness of the digit loop for values below `LONG_MAX`: no step
wraps and no step trips the overflow check. -/
theorem parse_number_go_complete (ds : List Nat) (val : Nat)
    (h : ds.foldl (fun x k => x * 10 + k) val < LONG_MAX) :
    parse_number_go val ds = some (ds.foldl (fun x k => x * 10 + k) val) := by
  induction ds generalizing val with
  | nil => rfl
  | cons d ds ih =>
    have hstep : val * 10 + d ≤ ds.foldl (fun x k => x * 10 + k) (val * 10 + d) :=
      dec_fold_mono ds (val * 10 + d)
    have hfold : ds.foldl (fun x k => x * 10 + k) (val * 10 + d) < LONG_MAX := by
      simpa using h
    have hlt : val * 10 + d < LONG_MAX := lt_of_le_of_lt hstep hfold
    have hlt2 : d + val * 10 < UINT64_MOD := by
      have h64 : LONG_MAX < UINT64_MOD := by decide
      omega
    have hmod : (d + val * 10) % UINT64_MOD = val * 10 + d := by
      rw [Nat.mod_eq_of_lt hlt2]; omega
    simp only [parse_number_go]
    rw [hmod, if_neg (by omega)]
    simpa using ih (val * 10 + d) hfold

/-- Soundness: every accepted accumulator stays below `LONG_MAX`. -/
theorem parse_number_go_sound (ds : List Nat) (val v : Nat)
    (h0 : val < LONG_MAX) (h : parse_number_go val ds = some v) :
    v < LONG_MAX := by
  induction ds generalizing val with
  | nil => simp [parse_number_go] at h; omega
  | cons d ds ih =>
    simp only [parse_number_go] at h
    split at h
    · exact absurd h (by simp)
    · exact ih _ (by omega) h

end Reader

/-- Claim C9, counterexample: the literal `4611686018427387904 = 2^62`
has a magnitude that does not fit in 62 bits (the largest 62-bit
magnitude is `2^62 - 1`), yet `parse_number` accepts it and yields the
number instead of signalling an integer overflow. -/
theorem c9_counterexample :
    Reader.parse_number 4 [6, 1, 1, 6, 8, 6, 0, 1, 8, 4, 2, 7, 3, 8, 7, 9, 0, 4] =
      some (2 ^ 62) ∧
    ¬ ((2 : Nat) ^ 62 ≤ 2 ^ 62 - 1) := by
  exact ⟨by decide, by decide⟩

/-- Claim C9 (amended): `parse_number` accepts exactly the digit strings
whose running 64-bit accumulator stays below `LONG_MAX = 2^63 - 1`
after every step.  Every literal whose decimal value is below
`2^63 - 1` is parsed to that exact value (there is no 62-bit/tag-bit
restriction in this revision); every accepted value is below
`2^63 - 1`; and a literal large enough to wrap the `uint64_t`
accumulator below `2^63 - 1` -- here `2 * 10^19` -- is accepted with an
incorrect value instead of being rejected. -/
theorem c9_parse_number_amended :
    (∀ d ds, Reader.dec_value d ds < Reader.LONG_MAX →
       Reader.parse_number d ds = some (Reader.dec_value d ds)) ∧
    (∀ d ds v, d < 10 → Reader.parse_number d ds = some v → v < Reader.LONG_MAX) ∧
    (Reader.parse_number 2 (List.replicate 19 0) = some 1553255926290448384 ∧
     Reader.dec_value 2 (List.replicate 19 0) = 2 * 10 ^ 19 ∧
     (1553255926290448384 : Nat) ≠ 2 * 10 ^ 19) := by
  refine ⟨?_, ?_, by decide, by decide, by decide⟩
  · intro d ds h
    exact Reader.parse_number_go_complete ds d h
  · intro d ds v hd h
    exact Reader.parse_number_go_sound ds d v (by unfold Reader.LONG_MAX; omega) h

/-- Witness for C9: `123` fits, parses to itself, and is below the
accepted bound. -/
theorem c9_witness :
    Reader.parse_number 1 [2, 3] = some (Reader.dec_value 1 [2, 3]) ∧
    (123 : Nat) < Reader.LONG_MAX := by
  exact ⟨c9_parse_number_amended.1 1 [2, 3] (by decide),
         c9_parse_number_amended.2.1 1 [2, 3] 123 (by decide)
           (c9_parse_number_amended.1 1 [2, 3] (by decide))⟩

namespace ErrRing

/-- `getD` over an index range rebuilds the list. -/
theorem map_getD_range (l : List String) (d : String) :
    (List.range l.length).map (fun j => l.getD j d) = l := by
  induction l with
  | nil => rfl
  | cons x t ih =>
    rw [List.length_cons, List.range_succ_eq_map]
    simp only [List.map_cons, List.getD_cons_zero, List.map_map]
    refine congrArg (x :: ·) ?_
    rw [show ((fun j => (x :: t).getD j d) ∘ Nat.succ) = (fun j => t.getD j d) from
          funext fun j => List.getD_cons_succ]
    exact ih

/-- After recording at most 16 messages from a counter position that
keeps everything within the first window of the ring, the counter has
advanced by the message count and the slots hold the messages in
insertion order. -/
theorem record_all_spec (msgs : List String) (st : ErrState)
    (h : st.ptr + msgs.length ≤ 16) :
    (record_all st msgs).ptr = st.ptr + msgs.length ∧
    ∀ j, (record_all st msgs).stack j =
      if st.ptr ≤ j ∧ j < st.ptr + msgs.length then msgs.getD (j - st.ptr) ""
      else st.stack j := by
  induction msgs generalizing st with
  | nil =>
    refine ⟨by simp [record_all], fun j => ?_⟩
    simp only [record_all, List.foldl_nil, List.length_nil]
    rw [if_neg (by omega)]
  | cons m rest ih =>
    have hlen : rest.length + 1 = (m :: rest).length := (List.length_cons m rest).symm
    have hp15 : st.ptr ≤ 15 := by rw [← hlen] at h; omega
    have hptr1 : (error_record st m).ptr = st.ptr + 1 := by
      simp only [error_record]
      exact Nat.mod_eq_of_lt (by omega)
    have hm16 : st.ptr % 16 = st.ptr := Nat.mod_eq_of_lt (by omega)
    have hrec : record_all st (m :: rest) = record_all (error_record st m) rest := by
      simp [record_all]
    have ih2 := ih (error_record st m) (by rw [hptr1]; rw [← hlen] at h; omega)
    rw [hrec]
    constructor
    · rw [ih2.1, hptr1, ← hlen]; omega
    · intro j
      rw [ih2.2 j, hptr1, ← hlen]
      by_cases h1 : st.ptr + 1 ≤ j ∧ j < st.ptr + 1 + rest.length
      · rw [if_pos h1, if_pos (by omega)]
        have hj : j - st.ptr = (j - (st.ptr + 1)) + 1 := by omega
        rw [hj, List.getD_cons_succ]
      · rw [if_neg h1]
        by_cases h2 : st.ptr ≤ j ∧ j < st.ptr + (rest.length + 1)
        · have hj : j = st.ptr := by omega
          rw [if_pos h2, hj]
          simp [error_record, hm16]
        · rw [if_neg h2]
          simp only [error_record, hm16]
          rw [if_neg (by omega)]

/-- The 17-slot print loop reproduces slots `0 .. n-1` in order when the
decremented counter is `n - 1 ≤ 15`. -/
theorem drain_lines_spec (n : Nat) (h1 : 1 ≤ n) (h2 : n ≤ 16) (stack : Nat → String) :
    drain_lines (n - 1) stack = (List.range n).map stack := by
  interval_cases n <;>
    simp [drain_lines, List.range_succ]

end ErrRing

/-- Claim C4, counterexample: in the default (non-quiet) mode the REPL
epilogue prints the form's value and leaves the error buffer untouched
-- nothing is drained and the counter is not reset, contradicting "after
each top-level form completes the REPL drains the buffer ... and resets
it".  The input: one top-level form that recorded one error, `quiet =
false`. -/
theorem c4_counterexample :
    (ErrRing.repl_drain false
       (ErrRing.record_all ⟨fun _ => "", 0⟩ ["Not a number"])).1 = [] ∧
    (ErrRing.repl_drain false
       (ErrRing.record_all ⟨fun _ => "", 0⟩ ["Not a number"])).2.ptr = 1 ∧
    ¬ ((ErrRing.repl_drain false
          (ErrRing.record_all ⟨fun _ => "", 0⟩ ["Not a number"])).1 = ["Not a number"] ∧
       (ErrRing.repl_drain false
          (ErrRing.record_all ⟨fun _ => "", 0⟩ ["Not a number"])).2.ptr = 0) := by
  refine ⟨rfl, rfl, ?_⟩
  intro hcontra
  exact absurd hcontra.1 (by simp [ErrRing.repl_drain])

/-- Claim C4 (amended): errors go into the 16-slot ring through the
8-bit counter, the slot being `error_ptr % 16` (so past 16 errors the
oldest entries are overwritten); the faulting primitives return `Nil`
and evaluation continues (see `c10_less_no_error` and the `errorE`
returns of the `Part004` builtins); but the REPL drains the buffer only
in QUIET mode: in the default mode the epilogue prints the value and
leaves the buffer and counter untouched, while in quiet mode a form
that recorded between 1 and 16 errors has them printed one line each,
in insertion order, after which the counter is reset to zero. -/
theorem c4_error_ring_amended :
    (∀ st msg, (ErrRing.error_record st msg).stack (st.ptr % 16) = msg ∧
               (ErrRing.error_record st msg).ptr = (st.ptr + 1) % 256) ∧
    (∀ st, ErrRing.repl_drain false st = ([], st)) ∧
    (∀ (init : Nat → String) (msgs : List String),
       1 ≤ msgs.length → msgs.length ≤ 16 →
       (ErrRing.repl_drain true (ErrRing.record_all ⟨init, 0⟩ msgs)).1 = msgs ∧
       (ErrRing.repl_drain true (ErrRing.record_all ⟨init, 0⟩ msgs)).2.ptr = 0) := by
  refine ⟨fun st msg => ⟨by simp [ErrRing.error_record], rfl⟩, fun st => rfl, ?_⟩
  intro init msgs hlo hhi
  have hspec := ErrRing.record_all_spec msgs ⟨init, 0⟩ (by simpa using hhi)
  have hptr : (ErrRing.record_all ⟨init, 0⟩ msgs).ptr = msgs.length := by
    simpa using hspec.1
  have hne : ¬ (ErrRing.record_all ⟨init, 0⟩ msgs).ptr = 0 := by omega
  constructor
  · simp only [ErrRing.repl_drain, Bool.not_true]
    rw [if_neg (by simp), if_neg hne]
    show ErrRing.drain_lines ((ErrRing.record_all ⟨init, 0⟩ msgs).ptr - 1)
        (ErrRing.record_all ⟨init, 0⟩ msgs).stack = msgs
    rw [hptr, ErrRing.drain_lines_spec msgs.length hlo hhi]
    have hmem : ∀ j ∈ List.range msgs.length,
        (ErrRing.record_all ⟨init, 0⟩ msgs).stack j = msgs.getD j "" := by
      intro j hj
      rw [List.mem_range] at hj
      rw [hspec.2 j, if_pos (by constructor <;> omega)]
      simp
    calc (List.range msgs.length).map (ErrRing.record_all ⟨init, 0⟩ msgs).stack
        = (List.range msgs.length).map (fun j => msgs.getD j "") :=
          List.map_congr_left hmem
      _ = msgs := ErrRing.map_getD_range msgs ""
  · simp only [ErrRing.repl_drain, Bool.not_true]
    rw [if_neg (by simp), if_neg hne]

/-- Witness for C4: two errors in quiet mode drain as two lines in
insertion order and reset the counter. -/
theorem c4_witness :
    (ErrRing.repl_drain true
       (ErrRing.record_all ⟨fun _ => "", 0⟩ ["first error", "second error"])).1 =
      ["first error", "second error"] ∧
    (ErrRing.repl_drain true
       (ErrRing.record_all ⟨fun _ => "", 0⟩ ["first error", "second error"])).2.ptr = 0 :=
  c4_error_ring_amended.2.2 (fun _ => "") ["first error", "second error"]
    (by decide) (by decide)

/-- Claim C3, counterexample: with the threshold clamped to 1% (input
`-m 0.5`), a growing collection whose own post-collection occupancy
(400 live bytes in the 1024-byte semi-space of the doubled arena, i.e.
about 39%) still exceeds the threshold is nevertheless followed by a
SWAPPING collection: the grow branch clears `grow_memory`
unconditionally and never re-examines occupancy.  This contradicts "for
every garbage collection that follows a collection whose post-collection
occupancy exceeded the configured threshold ... the collector ...
allocates a fresh arena of twice the previous total size". -/
theorem c3_counterexample :
    (GC.collect_garbage (GC.clamp_pct (1/2)) 400 ⟨1024, 0, true, true⟩).grew = true ∧
    GC.pct_in_use 400
      ((GC.collect_garbage (GC.clamp_pct (1/2)) 400
         ⟨1024, 0, true, true⟩).state.memory_size / 2) > GC.clamp_pct (1/2) ∧
    (GC.collect_garbage (GC.clamp_pct (1/2)) 400
      (GC.collect_garbage (GC.clamp_pct (1/2)) 400 ⟨1024, 0, true, true⟩).state).grew
      = false := by
  refine ⟨by norm_num [GC.collect_garbage, GC.clamp_pct], ?_, ?_⟩
  · norm_num [GC.collect_garbage, GC.clamp_pct, GC.pct_in_use]
  · norm_num [GC.collect_garbage, GC.clamp_pct, GC.pct_in_use]

/-- Claim C3 (amended): a collection grows exactly when the
`grow_memory` flag is set, and the flag is set exactly by a NON-growing
collection whose post-collection occupancy exceeds the threshold.
A growing collection allocates a fresh arena of twice the previous
total size, makes its first semi-space active, frees the old arena and
clears the flag without re-examining occupancy (so the collection after
a grow always swaps, even if occupancy still exceeds the threshold);
every other collection swaps the semi-spaces of the existing arena and
frees nothing; the threshold defaults to 75% and is clamped into
[1%, 99%]. -/
theorem c3_grow_policy_amended :
    (∀ (thr : ℚ) (live : Nat) (st : GC.GCState), st.grow_memory = true →
       GC.collect_garbage thr live st =
         { state := { memory_size := st.memory_size * 2, arena := st.arena + 1,
                      first_active := true, grow_memory := false },
           grew := true, freed := some st.arena }) ∧
    (∀ (thr : ℚ) (live : Nat) (st : GC.GCState), st.grow_memory = false →
       (GC.collect_garbage thr live st).grew = false ∧
       (GC.collect_garbage thr live st).freed = none ∧
       (GC.collect_garbage thr live st).state.memory_size = st.memory_size ∧
       (GC.collect_garbage thr live st).state.arena = st.arena ∧
       (GC.collect_garbage thr live st).state.first_active = !st.first_active ∧
       ((GC.collect_garbage thr live st).state.grow_memory = true ↔
          GC.pct_in_use live (st.memory_size / 2) > thr)) ∧
    (∀ (thr : ℚ) (live1 live2 : Nat) (st : GC.GCState), st.grow_memory = false →
       GC.pct_in_use live1 (st.memory_size / 2) > thr →
       (GC.collect_garbage thr live2
          (GC.collect_garbage thr live1 st).state).grew = true) ∧
    (∀ p : ℚ, 1 ≤ GC.clamp_pct p ∧ GC.clamp_pct p ≤ 99) ∧
    GC.clamp_pct GC.default_pct = 75 := by
  refine ⟨?_, ?_, ?_, ?_, ?_⟩
  · intro thr live st h
    simp [GC.collect_garbage, h]
  · intro thr live st h
    simp [GC.collect_garbage, h]
  · intro thr live1 live2 st h hpct
    simp [GC.collect_garbage, h, hpct]
  · intro p
    unfold GC.clamp_pct
    split
    · norm_num
    · split <;> constructor <;> linarith
  · norm_num [GC.clamp_pct, GC.default_pct]

/-- Witness for C3: a non-growing collection at 78% occupancy against a
50% threshold primes the flag, and the following collection grows. -/
theorem c3_witness :
    (GC.collect_garbage 50 0
       (GC.collect_garbage 50 400 ⟨1024, 0, true, false⟩).state).grew = true :=
  c3_grow_policy_amended.2.2.1 50 400 0 ⟨1024, 0, true, false⟩ rfl
    (by norm_num [GC.pct_in_use])

/-- Claim C5: in this revision `allocate` never aborts and has no
post-collection re-check.  At the concrete state below -- 1024-byte
arena, active first semi-space completely filled with 512 live bytes,
`grow_memory` not yet set -- a 32-byte request triggers a collection
that swaps and evacuates all 512 bytes, leaving no free space, after
which `allocate` still bumps `mem_ptr` to 1056, PAST `mem_end = 1024`,
and returns the out-of-bounds block at offset 1024.  The claim (and the
`allocate` of the older `lisp.c` revision, which re-checks and calls
`abort()`) requires memory exhaustion to abort instead. -/
theorem c5_allocate_no_abort :
    (Mem.allocate 75 512 32 ⟨1024, 512, 512, false⟩).1 = 1024 ∧
    (Mem.allocate 75 512 32 ⟨1024, 512, 512, false⟩).2.mem_ptr = 1056 ∧
    (Mem.allocate 75 512 32 ⟨1024, 512, 512, false⟩).2.mem_end = 1024 ∧
    (Mem.allocate 75 512 32 ⟨1024, 512, 512, false⟩).1 + 32 >
      (Mem.allocate 75 512 32 ⟨1024, 512, 512, false⟩).2.mem_end := by
  refine ⟨?_, ?_, ?_, ?_⟩ <;>
    norm_num [Mem.allocate, Mem.collect_garbage_mem, GC.pct_in_use]

namespace Sym

/-- `List.find?` returning an entry guarantees its name field. -/
theorem find_name_eq {table : List (Nat × String)} {name : String} {e : Nat × String}
    (h : table.find? (fun x => x.2 = name) = some e) : e.2 = name := by
  have := List.find?_some h
  simpa using this

/-- Once the table resolves `n` to a fixed entry, any later `symbol`
call leaves that resolution unchanged. -/
theorem find_stable (st : SymState) (n m : String) (e : Nat × String)
    (h : st.table.find? (fun x => x.2 = n) = some e) :
    ((symbol m st).2).table.find? (fun x => x.2 = n) = some e := by
  unfold symbol
  cases hm : st.table.find? (fun x => x.2 = m) with
  | some f => simpa using h
  | none =>
    have hmn : m ≠ n := by
      intro hmn
      rw [hmn] at hm
      rw [hm] at h
      exact absurd h (by simp)
    have hd : (decide (m = n)) = false := by simpa using hmn
    simp only [List.find?_cons, hd]
    exact h

/-- The address `symbol` returns is the one the table resolves the name
to. -/
theorem symbol_of_find (st : SymState) (n : String) (e : Nat × String)
    (h : st.table.find? (fun x => x.2 = n) = some e) : (symbol n st).1 = e.1 := by
  unfold symbol
  rw [h]

/-- After `symbol n`, the table resolves `n` to exactly the returned
object. -/
theorem symbol_resolves (st : SymState) (n : String) :
    ((symbol n st).2).table.find? (fun x => x.2 = n) = some ((symbol n st).1, n) := by
  unfold symbol
  cases hn : st.table.find? (fun x => x.2 = n) with
  | some e =>
    have he := find_name_eq hn
    simpa [← he] using hn
  | none => simp

/-- Resolution of `n` survives any sequence of later reader calls. -/
theorem find_stable_run (ms : List String) (st : SymState) (n : String)
    (e : Nat × String) (h : st.table.find? (fun x => x.2 = n) = some e) :
    (run_symbols ms st).table.find? (fun x => x.2 = n) = some e := by
  induction ms generalizing st with
  | nil => exact h
  | cons m rest ih =>
    simp only [run_symbols, List.foldl_cons]
    exact ih (symbol m st).2 (find_stable st n m e h)

/-- `symbol` preserves the no-duplicate-names invariant. -/
theorem symbol_nodup (st : SymState) (m : String) (h : NoDupNames st) :
    NoDupNames (symbol m st).2 := by
  unfold symbol
  cases hm : st.table.find? (fun x => x.2 = m) with
  | some e => exact h
  | none =>
    unfold NoDupNames at h ⊢
    simp only [List.map_cons, List.nodup_cons]
    refine ⟨?_, h⟩
    intro hmem
    rw [List.mem_map] at hmem
    obtain ⟨e, he, hname⟩ := hmem
    have := List.find?_eq_none.mp hm e he
    simp [hname] at this

/-- `run_symbols` preserves the invariant. -/
theorem run_symbols_nodup (ms : List String) (st : SymState) (h : NoDupNames st) :
    NoDupNames (run_symbols ms st) := by
  induction ms generalizing st with
  | nil => exact h
  | cons m rest ih =>
    simp only [run_symbols, List.foldl_cons]
    exact ih (symbol m st).2 (symbol_nodup st m h)

end Sym

/-- `symbol()` itself interns correctly: for any two `symbol` calls
with the same name `n` -- the second separated from the first by an
arbitrary sequence `ms` of further `symbol` calls -- the same heap
object is returned, and the no-duplicate-names invariant is preserved.
(The reader-level identity the spec asserts nevertheless fails, because
the `-` token path of `parse_expr` renames interned objects in place;
see the claim C6 theorem below.) -/
theorem symbol_call_interning (st : Sym.SymState) (n : String) (ms : List String)
    (h : Sym.NoDupNames st) :
    (Sym.symbol n (Sym.run_symbols ms (Sym.symbol n st).2)).1 = (Sym.symbol n st).1 ∧
    Sym.NoDupNames (Sym.run_symbols ms (Sym.symbol n st).2) := by
  constructor
  · have h1 := Sym.symbol_resolves st n
    have h2 := Sym.find_stable_run ms (Sym.symbol n st).2 n ((Sym.symbol n st).1, n) h1
    exact Sym.symbol_of_find _ n _ h2
  · exact Sym.run_symbols_nodup ms _ (Sym.symbol_nodup st n h)

/-- Concrete instance of `symbol_call_interning`: reading `foo`, then
`bar` and `foo` again, returns the same address for `foo` both times,
and the table keeps distinct names. -/
theorem symbol_call_interning_example :
    (Sym.symbol "foo" (Sym.run_symbols ["bar", "foo"]
       (Sym.symbol "foo" ⟨[], 0⟩).2)).1 = (Sym.symbol "foo" ⟨[], 0⟩).1 ∧
    Sym.NoDupNames (Sym.run_symbols ["bar", "foo"] (Sym.symbol "foo" ⟨[], 0⟩).2) :=
  symbol_call_interning ⟨[], 0⟩ "foo" ["bar", "foo"] (by simp [Sym.NoDupNames])

/-- Claim C6: the reader does NOT guarantee value identity for
identically named symbol occurrences, and `AllSymbols` can come to hold
two symbols with the same name -- the `-` token path of `parse_expr`
interns the tail and then renames the (possibly shared) interned
object's name in place.  Evaluated at the failing inputs: reading
`x -x x` from an empty table returns DIFFERENT heap objects for the two
occurrences of `x` (the `-x` in between renames the interned `x`, so
the third token interns a fresh one); reading `-x -x` returns two
distinct objects for the two identical occurrences of `-x`; and after
`-x -x` the table holds two symbols both named `-x`, violating the
interning invariant. -/
theorem c6_reader_rename_breaks_interning :
    (Sym.read_token (.plain "x")
        (Sym.read_token (.minus "x")
          (Sym.read_token (.plain "x") ⟨[], 0⟩).2).2).1 ≠
      (Sym.read_token (.plain "x") ⟨[], 0⟩).1 ∧
    (Sym.read_token (.minus "x") (Sym.read_token (.minus "x") ⟨[], 0⟩).2).1 ≠
      (Sym.read_token (.minus "x") ⟨[], 0⟩).1 ∧
    (Sym.read_tokens [.minus "x", .minus "x"] ⟨[], 0⟩).table =
      [(1, "-x"), (0, "-x")] ∧
    ¬ Sym.NoDupNames (Sym.read_tokens [.minus "x", .minus "x"] ⟨[], 0⟩) := by
  refine ⟨by decide, by decide, by decide, by decide⟩

namespace Part004

/-- Field access through a known heap cell. -/
theorem carF_ref {st : St} {a : Nat} {c d : Val}
    (h : heapGet st a = some (.cell c d)) : carF st (.ref a) = c := by
  simp [carF, objAt, h]

theorem cdrF_ref {st : St} {a : Nat} {c d : Val}
    (h : heapGet st a = some (.cell c d)) : cdrF st (.ref a) = d := by
  simp [cdrF, objAt, h]

theorem isCell_ref {st : St} {a : Nat} {c d : Val}
    (h : heapGet st a = some (.cell c d)) : isCell st (.ref a) = true := by
  simp [isCell, objAt, h]

/-- A two-element argument list passes the two-argument check. -/
theorem CHECK2ARGS_pair {st : St} {a a1 : Nat} {e1 e2 : Val}
    (hA : heapGet st a = some (.cell e1 (.ref a1)))
    (hA1 : heapGet st a1 = some (.cell e2 .nil)) :
    CHECK2ARGS st (.ref a) = false := by
  simp [CHECK2ARGS, CHECK1ARGS, CHECK0ARGS, isCell_ref hA, cdrF_ref hA,
        isCell_ref hA1, cdrF_ref hA1]

/-- A three-element argument list passes the three-argument check. -/
theorem CHECK3ARGS_triple {st : St} {a a1 a2 : Nat} {e1 e2 e3 : Val}
    (hA : heapGet st a = some (.cell e1 (.ref a1)))
    (hA1 : heapGet st a1 = some (.cell e2 (.ref a2)))
    (hA2 : heapGet st a2 = some (.cell e3 .nil)) :
    CHECK3ARGS st (.ref a) = false := by
  simp [CHECK3ARGS, CHECK2ARGS, CHECK1ARGS, CHECK0ARGS, isCell_ref hA, cdrF_ref hA,
        isCell_ref hA1, cdrF_ref hA1, isCell_ref hA2, cdrF_ref hA2]

/-- `typeOf` recognises numbers exactly when the heap object is a
number. -/
theorem typeOf_numT_iff (st : St) (v : Val) :
    typeOf st v = some .numT ↔ ∃ n, objAt st v = some (.num n) := by
  cases v with
  | ref a =>
    simp only [typeOf, objAt]
    cases h : heapGet st a with
    | none => simp
    | some o => cases o <;> simp
  | nil => simp [typeOf, objAt]
  | tru => simp [typeOf, objAt]
  | tailCall => simp [typeOf, objAt]

/-- Heap for `(eq x x)` with `x` bound to one shared cons cell:
address 0 the interned symbol `x`, address 1 the shared cell
`(nil . nil)`, addresses 2-4 the scope binding `x` to it, address 5 the
`eq` builtin, addresses 6-8 the expression `(eq x x)`. -/
def stEqShared : St :=
  { heap := [.sym "x", .cell .nil .nil, .cell (.ref 0) (.ref 1), .cell (.ref 2) .nil,
             .cell (.ref 3) .nil, .builtin .eqB, .cell (.ref 0) .nil,
             .cell (.ref 0) (.ref 6), .cell (.ref 5) (.ref 7)],
    tail_expr := .nil, tail_scope := .nil, errors := [] }

end Part004

/-- Claim C2, counterexample: both argument expressions of `(eq x x)`
evaluate to the IDENTICAL heap object (the cell at address 1), yet
`builtin_eq` returns `Nil` -- the `TYPE_CELL` arm of its switch yields
`Nil` unconditionally and never compares pointers.  The claim requires
`t` for identical heap objects. -/
theorem c2_counterexample :
    (Part004.eval 8 Part004.stEqShared (.ref 4) (.ref 8)).1 = Part004.Val.nil ∧
    (Part004.eval 8 Part004.stEqShared (.ref 4) (.ref 0)).1 = Part004.Val.ref 1 ∧
    Part004.isCell Part004.stEqShared (Part004.Val.ref 1) = true := by
  refine ⟨by decide, by decide, by decide⟩

/-- Claim C2 (amended): after evaluating both arguments, `eq` yields `t`
exactly when the two values have the same type byte and that type is
`TYPE_CONST` (so `(eq nil t)` is `t`: all three constant singletons
share one type byte in this revision), or both are numbers with equal
values, or both are symbols with equal names.  For every other pair --
cells, builtins, functions, macros, including the case where both
arguments are the IDENTICAL heap object -- it yields `nil`; no pointer
comparison is performed. -/
theorem c2_eq_amended :
    ∀ (st : Part004.St) (l r : Part004.Val),
      Part004.eq_values st l r = Part004.Val.tru ↔
        (Part004.typeOf st l = Part004.typeOf st r ∧
         Part004.typeOf st l ≠ none ∧
         (Part004.typeOf st l = some .constT ∨
          (Part004.typeOf st l = some .numT ∧
           Part004.numOf st l = Part004.numOf st r) ∨
          (Part004.typeOf st l = some .symT ∧
           Part004.nameOf st l = Part004.nameOf st r))) := by
  intro st l r
  unfold Part004.eq_values
  cases htl : Part004.typeOf st l with
  | none => simp
  | some tl =>
    cases htr : Part004.typeOf st r with
    | none => simp
    | some tr =>
      by_cases hne : tl = tr
      · subst hne
        simp only [ne_eq, not_true_eq_false, if_false, reduceIte]
        cases tl with
        | constT => simp
        | numT => split_ifs with hv <;> simp [hv]
        | symT => split_ifs <;> simp_all
        | builtinT => simp
        | cellT => simp
        | funcT => simp
        | macT => simp
      · simp only [ne_eq]
        rw [if_pos hne]
        simp [hne]

/-- Claim C10: for a call `(< e1 e2)` with exactly two argument
expressions whose evaluations leave the error state unchanged, if at
least one evaluated value is not a number then `builtin_less` returns
`Nil` and the error state is still unchanged -- no type error is
recorded.  In contrast, `builtin_add` on a first argument that
evaluates to a non-number appends the type error "Not a number" (and
also returns `Nil`). -/
theorem c10_less_no_error
    (fuel lf : Nat) (st st1 st2 : Part004.St) (scope e1 e2 v1 v2 : Part004.Val)
    (a a1 : Nat)
    (hA : Part004.heapGet st a = some (.cell e1 (.ref a1)))
    (hA1 : Part004.heapGet st a1 = some (.cell e2 .nil))
    (h1 : Part004.eval fuel st scope e1 = (v1, st1))
    (hA' : Part004.heapGet st1 a = some (.cell e1 (.ref a1)))
    (hA1' : Part004.heapGet st1 a1 = some (.cell e2 .nil))
    (h2 : Part004.eval fuel st1 scope e2 = (v2, st2))
    (herr1 : st1.errors = st.errors)
    (herr2 : st2.errors = st1.errors)
    (hnon : Part004.typeOf st2 v1 ≠ some .numT ∨ Part004.typeOf st2 v2 ≠ some .numT) :
    Part004.builtin_less (Part004.eval fuel) st scope (.ref a) = (.nil, st2) ∧
    st2.errors = st.errors ∧
    (Part004.typeOf st1 v1 ≠ some .numT →
      Part004.builtin_add (Part004.eval fuel) (lf + 1) st scope (.ref a) =
        (.nil, Part004.errorE st1 "Not a number")) := by
  refine ⟨?_, herr2.trans herr1, ?_⟩
  · unfold Part004.builtin_less
    rw [if_neg (by simp [Part004.CHECK2ARGS_pair hA hA1])]
    simp only [Part004.carF_ref hA, h1, Part004.cdrF_ref hA', Part004.carF_ref hA1', h2]
    have hret :
        (match Part004.objAt st2 v1, Part004.objAt st2 v2 with
         | some (.num a), some (.num b) => if a < b then Part004.Val.tru else Part004.Val.nil
         | _, _ => Part004.Val.nil) = Part004.Val.nil := by
      rcases hnon with hn | hn
      · cases hv : Part004.objAt st2 v1 with
        | none => rfl
        | some o =>
          cases o with
          | num k =>
            exact absurd ((Part004.typeOf_numT_iff st2 v1).mpr ⟨k, hv⟩) hn
          | sym s => cases Part004.objAt st2 v2 with | none => rfl | some o2 => cases o2 <;> rfl
          | builtin b => cases Part004.objAt st2 v2 with | none => rfl | some o2 => cases o2 <;> rfl
          | cell c d => cases Part004.objAt st2 v2 with | none => rfl | some o2 => cases o2 <;> rfl
          | func p b e c => cases Part004.objAt st2 v2 with | none => rfl | some o2 => cases o2 <;> rfl
          | mac p b e c => cases Part004.objAt st2 v2 with | none => rfl | some o2 => cases o2 <;> rfl
      · cases hv : Part004.objAt st2 v2 with
        | none => cases Part004.objAt st2 v1 with | none => rfl | some o1 => cases o1 <;> rfl
        | some o =>
          cases o with
          | num k =>
            exact absurd ((Part004.typeOf_numT_iff st2 v2).mpr ⟨k, hv⟩) hn
          | sym s => cases Part004.objAt st2 v1 with | none => rfl | some o1 => cases o1 <;> rfl
          | builtin b => cases Part004.objAt st2 v1 with | none => rfl | some o1 => cases o1 <;> rfl
          | cell c d => cases Part004.objAt st2 v1 with | none => rfl | some o1 => cases o1 <;> rfl
          | func p b e c => cases Part004.objAt st2 v1 with | none => rfl | some o1 => cases o1 <;> rfl
          | mac p b e c => cases Part004.objAt st2 v1 with | none => rfl | some o1 => cases o1 <;> rfl
    rw [hret]
  · intro hv1
    unfold Part004.builtin_add
    rw [if_neg (by simp)]
    show Part004.builtin_add_go (Part004.eval fuel) (lf + 1) st scope (.ref a) 0 =
      (.nil, Part004.errorE st1 "Not a number")
    unfold Part004.builtin_add_go
    rw [if_neg (by simp)]
    simp only [Part004.carF_ref hA, h1]
    have : Part004.objAt st1 v1 = none ∨
        ∃ o, Part004.objAt st1 v1 = some o ∧ (∀ k, o ≠ .num k) := by
      cases hv : Part004.objAt st1 v1 with
      | none => exact Or.inl rfl
      | some o =>
        refine Or.inr ⟨o, rfl, ?_⟩
        intro k hk
        exact hv1 ((Part004.typeOf_numT_iff st1 v1).mpr ⟨k, hk ▸ hv⟩)
    rcases this with hv | ⟨o, hv, ho⟩
    · rw [hv]
    · rw [hv]
      cases o with
      | num k => exact absurd rfl (ho k)
      | sym s => rfl
      | builtin b => rfl
      | cell c d => rfl
      | func p b e c => rfl
      | mac p b e c => rfl

namespace Part004

/-- Heap for the application `(if t 1 2)`: address 0 the `if` builtin,
addresses 1-2 the numbers 1 and 2, addresses 3-5 the argument list
`(t 1 2)`, address 6 the application cell. -/
def stIfW : St :=
  { heap := [.builtin .ifB, .num 1, .num 2, .cell (.ref 2) .nil,
             .cell (.ref 1) (.ref 3), .cell .tru (.ref 4), .cell (.ref 0) (.ref 5)],
    tail_expr := .nil, tail_scope := .nil, errors := [] }

/-- `stIfW` after `builtin_if` parked the taken branch (the number at
address 1) and the scope `Nil` on the sentinel. -/
def stIfParked : St :=
  { stIfW with tail_expr := .ref 1, tail_scope := .nil }

/-- Heap for the application `(progn 1 2)`: address 0 the `progn`
builtin, addresses 1-2 the numbers, addresses 3-4 the argument list,
address 5 the application cell. -/
def stPrognW : St :=
  { heap := [.builtin .prognB, .num 1, .num 2, .cell (.ref 2) .nil,
             .cell (.ref 1) (.ref 3), .cell (.ref 0) (.ref 4)],
    tail_expr := .nil, tail_scope := .nil, errors := [] }

end Part004

/-- Claim C1: the tail-call protocol of `if`/`progn` and the
evaluator's application loop.  (1) `builtin_if` evaluates only its
condition; its final state is the post-condition state with exactly the
two sentinel slots updated -- the selected branch expression (then
branch iff the condition is non-`Nil`) and the current scope are parked
unevaluated, and the shared `TailCall` sentinel is returned.  (2)/(3)
`builtin_progn` evaluates every form but the last and parks the last
form and the scope the same way (shown for one- and two-form bodies).
(4) The application loop of `eval_cell`, on receiving the sentinel from
a builtin, reloads the parked expression and scope and continues inside
the same loop (`eval_cell` at the same nesting, the `goto start` of the
C source -- host recursion does not grow) when the parked expression is
a cons cell, and evaluates it exactly once otherwise. -/
theorem c1_tailcall_trampoline :
    (∀ (fuel : Nat) (st st1 : Part004.St) (scope cond bt bf cv : Part004.Val)
       (a a1 a2 : Nat),
       Part004.heapGet st a = some (.cell cond (.ref a1)) →
       Part004.heapGet st a1 = some (.cell bt (.ref a2)) →
       Part004.heapGet st a2 = some (.cell bf .nil) →
       Part004.eval fuel st scope cond = (cv, st1) →
       Part004.heapGet st1 a = some (.cell cond (.ref a1)) →
       Part004.heapGet st1 a1 = some (.cell bt (.ref a2)) →
       Part004.heapGet st1 a2 = some (.cell bf .nil) →
       Part004.builtin_if (Part004.eval fuel) st scope (.ref a) =
         (.tailCall, { st1 with
                       tail_expr := if cv = Part004.Val.nil then bf else bt
                       tail_scope := scope })) ∧
    (∀ (fuel lf : Nat) (st : Part004.St) (scope e : Part004.Val) (a : Nat),
       Part004.heapGet st a = some (.cell e .nil) →
       Part004.builtin_progn (Part004.eval fuel) (lf + 1) st scope (.ref a) =
         (.tailCall, { st with tail_expr := e, tail_scope := scope })) ∧
    (∀ (fuel lf : Nat) (st st1 : Part004.St) (scope e1 e2 v1 : Part004.Val)
       (a a1 : Nat),
       Part004.heapGet st a = some (.cell e1 (.ref a1)) →
       Part004.heapGet st a1 = some (.cell e2 .nil) →
       Part004.eval fuel st scope e1 = (v1, st1) →
       Part004.heapGet st1 a = some (.cell e1 (.ref a1)) →
       Part004.heapGet st1 a1 = some (.cell e2 .nil) →
       Part004.builtin_progn (Part004.eval fuel) (lf + 2) st scope (.ref a) =
         (.tailCall, { st1 with tail_expr := e2, tail_scope := scope })) ∧
    (∀ (fuel : Nat) (st st1 st2 : Part004.St) (scope f args fv : Part004.Val)
       (a : Nat) (b : Part004.BName),
       Part004.heapGet st a = some (.cell f args) →
       Part004.eval fuel st scope f = (fv, st1) →
       Part004.objAt st1 fv = some (.builtin b) →
       Part004.apply_builtin (Part004.eval fuel) fuel b st1 scope
         (Part004.cdrF st1 (.ref a)) = (.tailCall, st2) →
       Part004.eval_cell (fuel + 1) st scope (.ref a) =
         (if Part004.isCell st2 st2.tail_expr then
            Part004.eval_cell fuel st2 st2.tail_scope st2.tail_expr
          else
            Part004.eval fuel st2 st2.tail_scope st2.tail_expr)) := by
  refine ⟨?_, ?_, ?_, ?_⟩
  · intro fuel st st1 scope cond bt bf cv a a1 a2 hA hA1 hA2 hev hA' hA1' hA2'
    unfold Part004.builtin_if
    rw [if_neg (by simp [Part004.CHECK3ARGS_triple hA hA1 hA2])]
    simp only [Part004.carF_ref hA, hev, Part004.cdrF_ref hA', Part004.carF_ref hA1',
               Part004.cdrF_ref hA1', Part004.carF_ref hA2']
    by_cases hcv : cv = Part004.Val.nil <;> simp [hcv]
  · intro fuel lf st scope e a hA
    unfold Part004.builtin_progn Part004.builtin_progn_go
    rw [if_neg (by simp [Part004.cdrF_ref hA])]
    rw [if_pos (by simp)]
    rw [Part004.carF_ref hA]
  · intro fuel lf st st1 scope e1 e2 v1 a a1 hA hA1 hev hA' hA1'
    unfold Part004.builtin_progn Part004.builtin_progn_go
    rw [if_pos (by simp [Part004.cdrF_ref hA])]
    simp only [Part004.carF_ref hA, hev, Part004.cdrF_ref hA']
    unfold Part004.builtin_progn_go
    rw [if_neg (by simp [Part004.cdrF_ref hA1'])]
    rw [if_pos (by simp)]
    rw [Part004.carF_ref hA1']
  · intro fuel st st1 st2 scope f args fv a b hA hev hb happ
    have hev' : Part004.evalR fuel .exprM st scope f = (fv, st1) := hev
    have happ' : Part004.apply_builtin (Part004.evalR fuel .exprM) fuel b st1 scope
        (Part004.cdrF st1 (.ref a)) = (.tailCall, st2) := happ
    show Part004.evalR (fuel + 1) .cellM st scope (.ref a) = _
    unfold Part004.evalR
    simp only [Part004.carF_ref hA, hev', hb, happ']
    unfold Part004.tail_dispatch
    rw [if_pos rfl]
    rfl

/-- Witness for C1 at the concrete programs `(if t 1 2)` and
`(progn 1 2)`: the branch/last form is parked unevaluated, and the loop
equation discharges at the full application `(if t 1 2)`. -/
theorem c1_witness :
    Part004.builtin_if (Part004.eval 3) Part004.stIfW .nil (.ref 5) =
      (.tailCall, Part004.stIfParked) ∧
    Part004.builtin_progn (Part004.eval 3) 1 Part004.stPrognW .nil (.ref 3) =
      (.tailCall, { Part004.stPrognW with tail_expr := .ref 2, tail_scope := .nil }) ∧
    Part004.builtin_progn (Part004.eval 3) 2 Part004.stPrognW .nil (.ref 4) =
      (.tailCall, { Part004.stPrognW with tail_expr := .ref 2, tail_scope := .nil }) ∧
    Part004.eval_cell 4 Part004.stIfW .nil (.ref 6) =
      (if Part004.isCell Part004.stIfParked Part004.stIfParked.tail_expr then
         Part004.eval_cell 3 Part004.stIfParked Part004.stIfParked.tail_scope
           Part004.stIfParked.tail_expr
       else
         Part004.eval 3 Part004.stIfParked Part004.stIfParked.tail_scope
           Part004.stIfParked.tail_expr) := by
  refine ⟨?_, ?_, ?_, ?_⟩
  · have h := c1_tailcall_trampoline.1 3 Part004.stIfW Part004.stIfW .nil .tru
      (.ref 1) (.ref 2) .tru 5 4 3 (by decide) (by decide) (by decide) (by decide)
      (by decide) (by decide) (by decide)
    simpa [Part004.stIfParked] using h
  · exact c1_tailcall_trampoline.2.1 3 0 Part004.stPrognW .nil (.ref 2) 3 (by decide)
  · exact c1_tailcall_trampoline.2.2.1 3 0 Part004.stPrognW Part004.stPrognW .nil
      (.ref 1) (.ref 2) (.ref 1) 4 3 (by decide) (by decide) (by decide) (by decide)
      (by decide)
  · exact c1_tailcall_trampoline.2.2.2 3 Part004.stIfW Part004.stIfW
      Part004.stIfParked .nil (.ref 0) (.ref 5) (.ref 0) 6 .ifB (by decide) (by decide)
      (by decide) (by decide)

namespace Part004

/-- Heap for the argument list `(t 1)`: address 0 the `<` builtin
(unused by the lemma application itself), address 1 the number 1,
addresses 2-3 the argument list whose first expression is the constant
`t` -- which evaluates to itself and is not a number. -/
def stLessW : St :=
  { heap := [.builtin .lessB, .num 1, .cell (.ref 1) .nil, .cell .tru (.ref 2)],
    tail_expr := .nil, tail_scope := .nil, errors := [] }

end Part004

/-- Witness for C10: `(< t 1)` yields `Nil` with the error list
untouched, while `(+ t 1)` records "Not a number". -/
theorem c10_witness :
    Part004.builtin_less (Part004.eval 3) Part004.stLessW .nil (.ref 3) =
      (.nil, Part004.stLessW) ∧
    Part004.builtin_add (Part004.eval 3) 1 Part004.stLessW .nil (.ref 3) =
      (.nil, Part004.errorE Part004.stLessW "Not a number") := by
  have h := c10_less_no_error 3 0 Part004.stLessW Part004.stLessW Part004.stLessW
    .nil .tru (.ref 1) .tru (.ref 1) 3 2 (by decide) (by decide) (by decide)
    (by decide) (by decide) (by decide) (by decide) (by decide) (by decide)
  exact ⟨h.1, h.2.2 (by decide)⟩
